import Mathlib

/-!
# Verification of the vehicle telemetry pipeline (src/main.c)

A shallow embedding of the C program in `src/main.c`: a bounded FIFO queue of
cloud report records (`CloudQueue` with `queue_enqueue` / `queue_dequeue`),
a sensor updater (`fast_loop_thread` body, embedded as `updateState`),
a rule evaluator (`slow_loop_thread` body, embedded as `slowTick`) and an
uplink sender (`cloud_sender_thread` body, embedded as `cloudSenderStep`).
C `float` values are modelled as exact rationals; C `int`/`long` as `ℤ`.
-/

set_option autoImplicit false

namespace VehicleMonitor

/-- The `SensorData` struct (src/main.c lines 12-16); the three float fields
modelled as rationals. -/
structure SensorData where
  battery : ℚ
  speed : ℚ
  temp : ℚ
deriving DecidableEq

/-- The `VehicleState` struct (src/main.c lines 18-24). -/
structure VehicleState where
  total_distance : ℚ
  top_speed : ℚ
  last_battery : ℚ
  is_moving : Bool
  current_sensor : SensorData
deriving DecidableEq

/-- The `CloudData` struct (src/main.c lines 26-31); `timestamp` is a C `long`,
modelled as `ℤ`. -/
structure CloudData where
  sensor : SensorData
  distance : ℚ
  top_speed : ℚ
  timestamp : ℤ
deriving DecidableEq

/-- The constant from `#define QUEUE_SIZE 1000` (src/main.c line 33). -/
def QUEUE_SIZE : ℤ := 1000

/-- The `CloudQueue` struct (src/main.c lines 35-41): the backing array is a
total map from index to record (only indices `0 ≤ i < QUEUE_SIZE` are ever
used); `front`, `rear`, `count` are C `int`s, modelled as `ℤ`.  The pthread
mutex field only serialises accesses and carries no data, so it is omitted. -/
structure CloudQueue where
  data : ℤ → CloudData
  front : ℤ
  rear : ℤ
  count : ℤ

/-- The all-zeroes `SensorData`, as produced by C zero-initialisation. -/
def SensorData.zero : SensorData := ⟨0, 0, 0⟩

/-- The all-zeroes `CloudData`, as produced by C zero-initialisation. -/
def CloudData.zero : CloudData := ⟨SensorData.zero, 0, 0, 0⟩

/-- The function `queue_init` (src/main.c lines 86-91) applied to the zero-initialised
global `cloud_queue` (line 44): `front = 0`, `rear = -1`, `count = 0`. -/
def queue_init : CloudQueue :=
  { data := fun _ => CloudData.zero, front := 0, rear := -1, count := 0 }

/-- The function `queue_enqueue` (src/main.c lines 93-107).  Returns the queue after the
call together with the C function's boolean result.  On a full queue
(`count >= QUEUE_SIZE`) the queue is returned untouched with result `false`;
otherwise `rear` advances circularly, the record is stored there and `count`
is incremented.  C `%` on the (non-negative) operands that occur here agrees
with `Int.emod`. -/
def queue_enqueue (q : CloudQueue) (d : CloudData) : CloudQueue × Bool :=
  if q.count ≥ QUEUE_SIZE then (q, false)
  else
    let r := (q.rear + 1) % QUEUE_SIZE
    ({ data := fun i => if i = r then d else q.data i,
       front := q.front, rear := r, count := q.count + 1 }, true)

/-- The function `queue_dequeue` (src/main.c lines 109-123).  Returns the queue after the
call together with the record written through the out-parameter (`none` when
the queue was empty and the C function returned `false`). -/
def queue_dequeue (q : CloudQueue) : CloudQueue × Option CloudData :=
  if q.count = 0 then (q, none)
  else
    ({ data := q.data, front := (q.front + 1) % QUEUE_SIZE, rear := q.rear,
       count := q.count - 1 }, some (q.data q.front))

/-- The abstract contents of the queue, oldest first: the `count` records
starting at `front`, read circularly. -/
def queueToList (q : CloudQueue) : List CloudData :=
  (List.range q.count.toNat).map
    (fun i : ℕ => q.data ((q.front + (i : ℤ)) % QUEUE_SIZE))

/-- One client operation on the queue: an enqueue of a given record, or a
dequeue. -/
inductive QOp where
  | enq (d : CloudData)
  | deq

/-- Run a sequence of queue operations, collecting the final queue, the list
of successfully enqueued records (in order) and the list of dequeued records
(in order). -/
def runTrace (q : CloudQueue) : List QOp → CloudQueue × List CloudData × List CloudData
  | [] => (q, [], [])
  | QOp.enq d :: ops =>
    let e := queue_enqueue q d
    let rest := runTrace e.1 ops
    (rest.1, if e.2 then d :: rest.2.1 else rest.2.1, rest.2.2)
  | QOp.deq :: ops =>
    let e := queue_dequeue q
    let rest := runTrace e.1 ops
    (rest.1, rest.2.1,
      match e.2 with
      | some d => d :: rest.2.2
      | none => rest.2.2)

/-- Structural well-formedness of a queue state, maintained by every
reachable state: index bounds and the circular relation between `rear`,
`front` and `count`. -/
def QInv (q : CloudQueue) : Prop :=
  0 ≤ q.front ∧ q.front < QUEUE_SIZE ∧ 0 ≤ q.count ∧ q.count ≤ QUEUE_SIZE ∧
    (q.rear + 1) % QUEUE_SIZE = (q.front + q.count) % QUEUE_SIZE

theorem qinv_init : QInv queue_init := by
  refine ⟨by norm_num [queue_init], by norm_num [queue_init, QUEUE_SIZE],
    by norm_num [queue_init], by norm_num [queue_init, QUEUE_SIZE], ?_⟩
  norm_num [queue_init]

theorem queue_enqueue_full {q : CloudQueue} (d : CloudData)
    (h : q.count ≥ QUEUE_SIZE) : queue_enqueue q d = (q, false) := by
  simp [queue_enqueue, h]

theorem qinv_enqueue {q : CloudQueue} (d : CloudData) (h : QInv q) :
    QInv (queue_enqueue q d).1 := by
  obtain ⟨h1, h2, h3, h4, h5⟩ := h
  by_cases hful : q.count ≥ QUEUE_SIZE
  · simpa [queue_enqueue, hful] using ⟨h1, h2, h3, h4, h5⟩
  · simp only [QInv, queue_enqueue, hful, if_false]
    refine ⟨h1, h2, by omega, by omega, ?_⟩
    simp only [QUEUE_SIZE] at *
    omega

theorem qinv_dequeue {q : CloudQueue} (h : QInv q) :
    QInv (queue_dequeue q).1 := by
  obtain ⟨h1, h2, h3, h4, h5⟩ := h
  by_cases hemp : q.count = 0
  · simpa [queue_dequeue, hemp] using ⟨h1, h2, h3, h4, h5⟩
  · simp only [QInv, queue_dequeue, hemp, if_false]
    refine ⟨?_, ?_, ?_, ?_, ?_⟩ <;>
      (simp only [QUEUE_SIZE] at *; omega)

theorem count_bound_runTrace (ops : List QOp) :
    ∀ q : CloudQueue, QInv q → QInv (runTrace q ops).1 := by
  induction ops with
  | nil => intro q h; simpa [runTrace] using h
  | cons op ops ih =>
    intro q h
    cases op with
    | enq d => exact ih _ (qinv_enqueue d h)
    | deq => exact ih _ (qinv_dequeue h)

theorem queueToList_enqueue {q : CloudQueue} (d : CloudData) (h : QInv q)
    (hful : q.count < QUEUE_SIZE) :
    queueToList (queue_enqueue q d).1 = queueToList q ++ [d] := by
  obtain ⟨h1, h2, h3, h4, h5⟩ := h
  have hful2 : ¬ q.count ≥ QUEUE_SIZE := by omega
  simp only [queue_enqueue, hful2, if_false, queueToList]
  have hcnt : (q.count + 1).toNat = q.count.toNat + 1 := by omega
  rw [hcnt, List.range_succ, List.map_append]
  congr 1
  · apply List.map_congr_left
    intro i hi
    rw [List.mem_range] at hi
    have hne : ¬ ((q.front + (i : ℤ)) % QUEUE_SIZE = (q.rear + 1) % QUEUE_SIZE) := by
      simp only [QUEUE_SIZE] at *
      omega
    simp [hne]
  · have heq : (q.front + q.count) % QUEUE_SIZE = (q.rear + 1) % QUEUE_SIZE :=
      h5.symm
    simp [Int.toNat_of_nonneg h3, heq]

theorem queueToList_dequeue {q : CloudQueue} (h : QInv q) (hne : q.count ≠ 0) :
    queueToList q = q.data q.front :: queueToList (queue_dequeue q).1 ∧
      (queue_dequeue q).2 = some (q.data q.front) := by
  obtain ⟨h1, h2, h3, h4, h5⟩ := h
  refine ⟨?_, by simp [queue_dequeue, hne]⟩
  simp only [queue_dequeue, hne, if_false, queueToList]
  have hcnt : q.count.toNat = (q.count - 1).toNat + 1 := by omega
  rw [hcnt, List.range_succ_eq_map, List.map_cons, List.map_map]
  congr 1
  · have : (q.front + ((0 : ℕ) : ℤ)) % QUEUE_SIZE = q.front := by
      simp only [QUEUE_SIZE] at *
      omega
    rw [this]
  · apply List.map_congr_left
    intro i hi
    rw [List.mem_range] at hi
    have : ((q.front + 1) % QUEUE_SIZE + (i : ℤ)) % QUEUE_SIZE
        = (q.front + ((i + 1 : ℕ) : ℤ)) % QUEUE_SIZE := by
      simp only [QUEUE_SIZE] at *
      omega
    simp only [Function.comp_apply, this]

theorem runTrace_fifo (ops : List QOp) :
    ∀ q : CloudQueue, QInv q →
      (runTrace q ops).2.2 ++ queueToList (runTrace q ops).1
        = queueToList q ++ (runTrace q ops).2.1 := by
  induction ops with
  | nil => intro q h; simp [runTrace]
  | cons op ops ih =>
    intro q h
    cases op with
    | enq d =>
      by_cases hful : q.count ≥ QUEUE_SIZE
      · have he : queue_enqueue q d = (q, false) := queue_enqueue_full d hful
        simp [runTrace, he, ih q h]
      · have he2 := queueToList_enqueue d h (by omega)
        have hinv := qinv_enqueue d h
        have hok : (queue_enqueue q d).2 = true := by
          simp [queue_enqueue, hful]
        simp [runTrace, hok, ih _ hinv, he2]
    | deq =>
      by_cases hemp : q.count = 0
      · have he : queue_dequeue q = (q, none) := by simp [queue_dequeue, hemp]
        simp [runTrace, he, ih q h]
      · obtain ⟨hq, hout⟩ := queueToList_dequeue ⟨h.1, h.2.1, h.2.2.1, h.2.2.2.1, h.2.2.2.2⟩ hemp
        have hinv := qinv_dequeue h
        simp [runTrace, hout, ih _ hinv, hq]

/-- A concrete full queue (count at capacity), used to exercise the
full-queue rejection path. -/
def fullQueue : CloudQueue :=
  { data := fun _ => CloudData.zero, front := 0, rear := 999, count := 1000 }

/-- C1: for every sequence of queue_enqueue/queue_dequeue calls starting
from the initialized queue, the queue's count never exceeds the capacity
of 1000; and whenever queue_enqueue is called with count equal to capacity,
it returns false and leaves the queue (data array, front, rear, count)
unchanged. -/
theorem queue_bound_and_full_reject :
    (∀ ops : List QOp, (runTrace queue_init ops).1.count ≤ QUEUE_SIZE) ∧
    (∀ (q : CloudQueue) (d : CloudData), q.count = QUEUE_SIZE →
      queue_enqueue q d = (q, false)) := by
  constructor
  · intro ops
    exact (count_bound_runTrace ops queue_init qinv_init).2.2.2.1
  · intro q d h
    exact queue_enqueue_full d (by omega)

theorem queue_bound_and_full_reject_witness :
    (runTrace queue_init [QOp.enq CloudData.zero, QOp.deq]).1.count ≤ QUEUE_SIZE ∧
    queue_enqueue fullQueue CloudData.zero = (fullQueue, false) :=
  ⟨queue_bound_and_full_reject.1 [QOp.enq CloudData.zero, QOp.deq],
   queue_bound_and_full_reject.2 fullQueue CloudData.zero rfl⟩

/-- C2: FIFO order.  For every sequence of operations (the pure
enqueue/dequeue client model contains no requeue), the records removed by
queue_dequeue, followed by the records still in the queue, are exactly the
successfully enqueued records in enqueue order — so dequeues come out in
exactly the order in which records were successfully enqueued, each dequeue
returning the oldest record still present. -/
theorem queue_fifo_order (ops : List QOp) :
    (runTrace queue_init ops).2.2 ++ queueToList (runTrace queue_init ops).1
      = (runTrace queue_init ops).2.1 := by
  have h := runTrace_fifo ops queue_init qinv_init
  have hinit : queueToList queue_init = [] := by
    simp [queueToList, queue_init]
  rw [hinit] at h
  simpa using h

/-! ## Sensor updater (`fast_loop_thread`, src/main.c lines 131-157) -/

/-- The fixed tick interval in hours: `float time_hours = 0.01 / 3600.0`
(src/main.c line 142). -/
def time_hours : ℚ := 0.01 / 3600

/-- One iteration of the `fast_loop_thread` body (src/main.c lines 137-151),
applied to the current `VehicleState` and the freshly read `SensorData`:
replaces `current_sensor`, accumulates `total_distance`, raises
`top_speed` when exceeded, and recomputes `is_moving`. -/
def updateState (s : VehicleState) (sensor : SensorData) : VehicleState :=
  { total_distance := s.total_distance + sensor.speed * time_hours,
    top_speed := if sensor.speed > s.top_speed then sensor.speed else s.top_speed,
    last_battery := s.last_battery,
    is_moving := decide (sensor.speed > 0.5),
    current_sensor := sensor }

/-- The zero-initialised global `vehicle_state` (src/main.c line 43). -/
def vehicle_init : VehicleState :=
  { total_distance := 0, top_speed := 0, last_battery := 0,
    is_moving := false, current_sensor := SensorData.zero }

/-- Iterate the updater over a list of sensor readings, oldest first. -/
def runUpdates (s : VehicleState) (rs : List SensorData) : VehicleState :=
  rs.foldl updateState s

/-- The function `read_sensor_data` (src/main.c lines 47-68).  The three `static` locals
(battery, speed, temp) are exactly the fields of the returned struct, so the
previous `SensorData` doubles as the static state; the two
`(float)rand() / RAND_MAX` draws are passed in as explicit inputs.  Returns
the new reading (which is also the new static state). -/
def read_sensor_data (prev : SensorData) (randSpeed randTemp : ℚ) : SensorData :=
  let battery1 := prev.battery - 0.001
  let battery2 := if battery1 < 0 then 100 else battery1
  let speed1 := prev.speed + (randSpeed - 0.5) * 5
  let speed2 := if speed1 < 0 then 0 else speed1
  let speed3 := if speed2 > 80 then 80 else speed2
  let temp1 := prev.temp + (randTemp - 0.5) * 2
  let temp2 := if temp1 < 20 then 20 else temp1
  let temp3 := if temp2 > 75 then 75 else temp2
  { battery := battery2, speed := speed3, temp := temp3 }

/-- C3: one update step of the sensor loop (a) replaces the current
snapshot with the reading, (b) adds `reading.speed` times the fixed tick
interval (10 ms expressed in hours, 0.01/3600) to `total_distance`,
(c) sets `top_speed` to the maximum of the old `top_speed` and
`reading.speed`, and (d) sets `is_moving` to `reading.speed > 0.5`. -/
theorem updateState_spec (s : VehicleState) (r : SensorData) :
    (updateState s r).current_sensor = r ∧
    (updateState s r).total_distance
      = s.total_distance + r.speed * ((0.01 : ℚ) / 3600) ∧
    (updateState s r).top_speed = max s.top_speed r.speed ∧
    ((updateState s r).is_moving = true ↔ r.speed > (0.5 : ℚ)) := by
  refine ⟨rfl, rfl, ?_, by simp [updateState]⟩
  simp only [updateState]
  rcases le_or_lt r.speed s.top_speed with h | h
  · rw [if_neg (by exact not_lt.mpr h), max_eq_left h]
  · rw [if_pos h, max_eq_right h.le]

theorem runUpdates_mono (rs : List SensorData) :
    ∀ s : VehicleState, (∀ r ∈ rs, 0 ≤ r.speed) →
      s.total_distance ≤ (runUpdates s rs).total_distance ∧
      s.top_speed ≤ (runUpdates s rs).top_speed := by
  induction rs with
  | nil => intro s _; exact ⟨le_refl _, le_refl _⟩
  | cons r rs ih =>
    intro s hnn
    have hr : 0 ≤ r.speed := hnn r (List.mem_cons_self r rs)
    have hrest := ih (updateState s r) (fun x hx => hnn x (List.mem_cons_of_mem r hx))
    constructor
    · refine le_trans ?_ hrest.1
      simp only [updateState]
      have : 0 ≤ r.speed * time_hours :=
        mul_nonneg hr (by norm_num [time_hours])
      linarith
    · refine le_trans ?_ hrest.2
      simp only [updateState]
      rcases le_or_lt r.speed s.top_speed with h | h
      · rw [if_neg (not_lt.mpr h)]
      · rw [if_pos h]; exact h.le

/-- C4: monotonicity.  The sensor source clamps speed to be non-negative,
and for every sequence of updater steps from the initial state whose
readings all have non-negative speed, `total_distance` and `top_speed`
are non-decreasing across the sequence (any earlier point of the sequence
is bounded by any later one). -/
theorem vehicle_state_monotone :
    (∀ (prev : SensorData) (r1 r2 : ℚ),
      0 ≤ (read_sensor_data prev r1 r2).speed) ∧
    (∀ (rs1 rs2 : List SensorData),
      (∀ r ∈ rs1 ++ rs2, 0 ≤ r.speed) →
      (runUpdates vehicle_init rs1).total_distance
          ≤ (runUpdates vehicle_init (rs1 ++ rs2)).total_distance ∧
        (runUpdates vehicle_init rs1).top_speed
          ≤ (runUpdates vehicle_init (rs1 ++ rs2)).top_speed) := by
  constructor
  · intro prev r1 r2
    simp only [read_sensor_data]
    split
    · norm_num
    · split
      · norm_num
      · rename_i h1
        norm_num at h1 ⊢
        linarith
  · intro rs1 rs2 hnn
    have hsplit : runUpdates vehicle_init (rs1 ++ rs2)
        = runUpdates (runUpdates vehicle_init rs1) rs2 := by
      simp [runUpdates, List.foldl_append]
    rw [hsplit]
    exact runUpdates_mono rs2 (runUpdates vehicle_init rs1)
      (fun r hr => hnn r (List.mem_append_right rs1 hr))

theorem vehicle_state_monotone_witness :
    0 ≤ (read_sensor_data ⟨100, 0, 25⟩ 1 0).speed ∧
    ((runUpdates vehicle_init [⟨99, 3, 25⟩]).total_distance
        ≤ (runUpdates vehicle_init ([⟨99, 3, 25⟩] ++ [⟨98, 7, 30⟩])).total_distance ∧
      (runUpdates vehicle_init [⟨99, 3, 25⟩]).top_speed
        ≤ (runUpdates vehicle_init ([⟨99, 3, 25⟩] ++ [⟨98, 7, 30⟩])).top_speed) :=
  ⟨vehicle_state_monotone.1 ⟨100, 0, 25⟩ 1 0,
   vehicle_state_monotone.2 [⟨99, 3, 25⟩] [⟨98, 7, 30⟩] (by
    intro r hr
    simp only [List.mem_append, List.mem_singleton] at hr
    rcases hr with h | h <;> (rw [h]; norm_num))⟩

/-! ## Report evaluator (`slow_loop_thread`, src/main.c lines 159-213) -/

/-- The `CloudData` record built by the evaluator from the locked snapshot
(src/main.c lines 173-177): the current sensor reading, the accumulated
distance and top speed, and the timestamp `now` of the tick. -/
def tickRecord (vs : VehicleState) (now : ℤ) : CloudData :=
  { sensor := vs.current_sensor, distance := vs.total_distance,
    top_speed := vs.top_speed, timestamp := now }

/-- The result of one evaluator tick: the two thread-local bookkeeping
variables (`last_send_time`, `last_battery_sent`), the queue after the tick,
and ghost instrumentation recording the argument of each `queue_enqueue`
call made during the tick. -/
structure TickResult where
  last_send_time : ℤ
  last_battery_sent : ℚ
  queue : CloudQueue
  attempted : List CloudData

/-- One iteration of the `slow_loop_thread` body (src/main.c lines 166-207).
`vs` is the locked vehicle state, `now` the value of the
`get_timestamp_ms()` call at line 177 (also used by rule 2 through
`cloud_data.timestamp`), `last_send_time` and `last_battery_sent` the
thread-local variables.  Rule 1 (battery change while idle) sets
`last_battery_sent`; rule 2 (periodic while moving) sets `last_send_time`;
rule 3 (critical temperature) only raises `should_send`; if any rule fired,
exactly one enqueue of the one built record is attempted, its failure only
logged. -/
def slowTick (vs : VehicleState) (now last_send_time : ℤ)
    (last_battery_sent : ℚ) (q : CloudQueue) : TickResult :=
  let current := vs.current_sensor
  let is_moving := vs.is_moving
  let battery_change := |current.battery - last_battery_sent|
  let temp_critical : Bool := decide (current.temp > 70)
  let cloud_data := tickRecord vs now
  let rule1 : Bool := !is_moving && decide (battery_change > 0.5)
  let rule2 : Bool :=
    is_moving && decide (cloud_data.timestamp - last_send_time ≥ 1000)
  let last_battery_sent1 := if rule1 then current.battery else last_battery_sent
  let last_send_time1 := if rule2 then cloud_data.timestamp else last_send_time
  let should_send := rule1 || rule2 || temp_critical
  if should_send then
    { last_send_time := last_send_time1, last_battery_sent := last_battery_sent1,
      queue := (queue_enqueue q cloud_data).1, attempted := [cloud_data] }
  else
    { last_send_time := last_send_time1, last_battery_sent := last_battery_sent1,
      queue := q, attempted := [] }

/-- C5: on every evaluator tick, regardless of how many of the three
trigger rules are true, at most one record is built, and exactly one
enqueue of exactly one record (the one built from the snapshot) is
attempted precisely when at least one rule fired. -/
theorem evaluator_one_record_per_tick (vs : VehicleState)
    (now lst : ℤ) (lbs : ℚ) (q : CloudQueue) :
    (slowTick vs now lst lbs q).attempted.length ≤ 1 ∧
    ((slowTick vs now lst lbs q).attempted = [tickRecord vs now] ↔
      ((vs.is_moving = false ∧ |vs.current_sensor.battery - lbs| > 0.5) ∨
       (vs.is_moving = true ∧ now - lst ≥ 1000) ∨
       vs.current_sensor.temp > 70)) := by
  by_cases hm : vs.is_moving <;>
    by_cases h1 : |vs.current_sensor.battery - lbs| > (0.5 : ℚ) <;>
    by_cases h2 : now - lst ≥ (1000 : ℤ) <;>
    by_cases h3 : vs.current_sensor.temp > (70 : ℚ) <;>
    simp [slowTick, tickRecord, hm, h1, h2, h3]

/-- C6: rule independence.  (1) With `is_moving` false, battery delta above
0.5 and temperature at most 70, exactly one record is enqueued and
`last_battery_sent` is set to the sent battery value.  (2) With `is_moving`
true and at least 1000 ms elapsed, exactly one record is enqueued and
`last_send_time` is updated to `now`.  (3) With temperature above 70 a
record is enqueued on every tick regardless of the other rules, and the
critical-temperature rule itself changes no local trigger bookkeeping:
both bookkeeping variables hold exactly what rules 1 and 2 dictate. -/
theorem evaluator_rule_independence :
    (∀ (vs : VehicleState) (now lst : ℤ) (lbs : ℚ) (q : CloudQueue),
      vs.is_moving = false → |vs.current_sensor.battery - lbs| > 0.5 →
      vs.current_sensor.temp ≤ 70 →
      (slowTick vs now lst lbs q).attempted = [tickRecord vs now] ∧
      (slowTick vs now lst lbs q).queue = (queue_enqueue q (tickRecord vs now)).1 ∧
      (slowTick vs now lst lbs q).last_battery_sent = vs.current_sensor.battery) ∧
    (∀ (vs : VehicleState) (now lst : ℤ) (lbs : ℚ) (q : CloudQueue),
      vs.is_moving = true → now - lst ≥ 1000 →
      (slowTick vs now lst lbs q).attempted = [tickRecord vs now] ∧
      (slowTick vs now lst lbs q).queue = (queue_enqueue q (tickRecord vs now)).1 ∧
      (slowTick vs now lst lbs q).last_send_time = now) ∧
    (∀ (vs : VehicleState) (now lst : ℤ) (lbs : ℚ) (q : CloudQueue),
      vs.current_sensor.temp > 70 →
      (slowTick vs now lst lbs q).attempted = [tickRecord vs now] ∧
      (slowTick vs now lst lbs q).queue = (queue_enqueue q (tickRecord vs now)).1 ∧
      (slowTick vs now lst lbs q).last_battery_sent
          = (if vs.is_moving = false ∧ |vs.current_sensor.battery - lbs| > 0.5
             then vs.current_sensor.battery else lbs) ∧
      (slowTick vs now lst lbs q).last_send_time
          = (if vs.is_moving = true ∧ now - lst ≥ 1000 then now else lst)) := by
  refine ⟨?_, ?_, ?_⟩
  · intro vs now lst lbs q hm h1 h3
    simp [slowTick, tickRecord, hm, h1]
  · intro vs now lst lbs q hm h2
    simp [slowTick, tickRecord, hm, h2]
  · intro vs now lst lbs q h3
    by_cases hm : vs.is_moving <;>
      by_cases h1 : |vs.current_sensor.battery - lbs| > (0.5 : ℚ) <;>
      by_cases h2 : now - lst ≥ (1000 : ℤ) <;>
      simp [slowTick, tickRecord, hm, h1, h2, h3]

/-- A concrete vehicle state used to exercise the evaluator: moving at
60 with a critically hot sensor. -/
def vehicleSample : VehicleState :=
  { total_distance := 5, top_speed := 60, last_battery := 0,
    is_moving := true, current_sensor := { battery := 80, speed := 60, temp := 72 } }

theorem evaluator_rule_independence_witness :
    ((slowTick vehicleSample 2000 0 0 queue_init).attempted
        = [tickRecord vehicleSample 2000] ∧
      (slowTick vehicleSample 2000 0 0 queue_init).queue
        = (queue_enqueue queue_init (tickRecord vehicleSample 2000)).1 ∧
      (slowTick vehicleSample 2000 0 0 queue_init).last_send_time = 2000) ∧
    ((slowTick vehicleSample 2000 1500 0 queue_init).attempted
        = [tickRecord vehicleSample 2000] ∧
      (slowTick vehicleSample 2000 1500 0 queue_init).queue
        = (queue_enqueue queue_init (tickRecord vehicleSample 2000)).1 ∧
      (slowTick vehicleSample 2000 1500 0 queue_init).last_battery_sent
          = (if vehicleSample.is_moving = false
                ∧ |vehicleSample.current_sensor.battery - 0| > 0.5
             then vehicleSample.current_sensor.battery else 0) ∧
      (slowTick vehicleSample 2000 1500 0 queue_init).last_send_time
          = (if vehicleSample.is_moving = true ∧ (2000 : ℤ) - 1500 ≥ 1000
             then 2000 else 1500)) :=
  ⟨evaluator_rule_independence.2.1 vehicleSample 2000 0 0 queue_init rfl (by norm_num),
   evaluator_rule_independence.2.2 vehicleSample 2000 1500 0 queue_init
     (by norm_num [vehicleSample])⟩

/-- C7: the outcome of the tick's enqueue has no effect on the evaluator's
local trigger bookkeeping or on the next tick's rule evaluation: the
bookkeeping (and the attempted record) computed by a tick is identical for
any two queue states — in particular identical whether the enqueue succeeds
or is rejected — and on a tick whose enqueue is rejected because the queue
is full, the queue is left unchanged (the record is dropped). -/
theorem evaluator_bookkeeping_unaffected_by_queue :
    (∀ (vs : VehicleState) (now lst : ℤ) (lbs : ℚ) (q q2 : CloudQueue),
      (slowTick vs now lst lbs q).last_send_time
          = (slowTick vs now lst lbs q2).last_send_time ∧
      (slowTick vs now lst lbs q).last_battery_sent
          = (slowTick vs now lst lbs q2).last_battery_sent ∧
      (slowTick vs now lst lbs q).attempted
          = (slowTick vs now lst lbs q2).attempted) ∧
    (∀ (vs : VehicleState) (now lst : ℤ) (lbs : ℚ) (q : CloudQueue),
      q.count = QUEUE_SIZE → (slowTick vs now lst lbs q).queue = q) := by
  constructor
  · intro vs now lst lbs q q2
    simp only [slowTick]
    split <;> exact ⟨rfl, rfl, rfl⟩
  · intro vs now lst lbs q hful
    have h : q.count ≥ QUEUE_SIZE := by omega
    simp only [slowTick]
    split
    · simp [queue_enqueue, h]
    · rfl

theorem evaluator_bookkeeping_unaffected_by_queue_witness :
    ((slowTick vehicleSample 2000 0 0 queue_init).last_send_time
        = (slowTick vehicleSample 2000 0 0 fullQueue).last_send_time ∧
      (slowTick vehicleSample 2000 0 0 queue_init).last_battery_sent
        = (slowTick vehicleSample 2000 0 0 fullQueue).last_battery_sent ∧
      (slowTick vehicleSample 2000 0 0 queue_init).attempted
        = (slowTick vehicleSample 2000 0 0 fullQueue).attempted) ∧
    (slowTick vehicleSample 2000 0 0 fullQueue).queue = fullQueue :=
  ⟨evaluator_bookkeeping_unaffected_by_queue.1 vehicleSample 2000 0 0 queue_init fullQueue,
   evaluator_bookkeeping_unaffected_by_queue.2 vehicleSample 2000 0 0 fullQueue rfl⟩

/-! ## Uplink sender (`cloud_sender_thread`, src/main.c lines 215-234) -/

/-- One iteration of the `cloud_sender_thread` body (src/main.c lines
218-231).  `success` is the outcome of the `send_to_cloud` transport call
(`true` = `SUCCESS`; the call itself is an external collaborator).  Returns
the queue afterwards, the record delivered to the cloud on success, and
ghost instrumentation recording the argument of the retry `queue_enqueue`
call (whose boolean result the C code discards).  When the dequeue finds
the queue empty the thread only sleeps. -/
def cloudSenderStep (q : CloudQueue) (success : Bool) :
    CloudQueue × Option CloudData × List CloudData :=
  match queue_dequeue q with
  | (q1, some d) =>
    if success then (q1, some d, [])
    else ((queue_enqueue q1 d).1, none, [d])
  | (q1, none) => (q1, none, [])

/-- C8: retry semantics of the sender loop.  For every dequeued record:
on transport success the record is delivered, discarded and never
re-enqueued; on transport failure the same record is re-enqueued exactly
once at the back via `queue_enqueue` (and, the requeue being an ordinary
enqueue, it is silently dropped when the queue is full at that moment).
Consequently, with a transport failing on the first call and succeeding on
the second and capacity available, a single enqueued record is re-enqueued
exactly once after the failure and then delivered, leaving the queue
empty. -/
theorem sender_retry_semantics :
    (∀ (q q1 : CloudQueue) (d : CloudData),
      queue_dequeue q = (q1, some d) →
      cloudSenderStep q true = (q1, some d, []) ∧
      cloudSenderStep q false = ((queue_enqueue q1 d).1, none, [d]) ∧
      (q1.count = QUEUE_SIZE → (cloudSenderStep q false).1 = q1)) ∧
    (∀ r : CloudData,
      (cloudSenderStep (queue_enqueue queue_init r).1 false).2.2 = [r] ∧
      queueToList (cloudSenderStep (queue_enqueue queue_init r).1 false).1 = [r] ∧
      (cloudSenderStep
          (cloudSenderStep (queue_enqueue queue_init r).1 false).1 true).2.1
        = some r ∧
      queueToList (cloudSenderStep
          (cloudSenderStep (queue_enqueue queue_init r).1 false).1 true).1
        = []) := by
  constructor
  · intro q q1 d h
    refine ⟨by simp [cloudSenderStep, h], by simp [cloudSenderStep, h], ?_⟩
    intro hful
    have hge : q1.count ≥ QUEUE_SIZE := by omega
    simp [cloudSenderStep, h, queue_enqueue, hge]
  · intro r
    refine ⟨rfl, ?_, rfl, ?_⟩ <;>
      norm_num [cloudSenderStep, queue_dequeue, queue_enqueue, queue_init,
        queueToList, QUEUE_SIZE, List.range_succ]

theorem sender_retry_semantics_witness :
    (cloudSenderStep (queue_enqueue queue_init CloudData.zero).1 true
        = ((queue_dequeue (queue_enqueue queue_init CloudData.zero).1).1,
           some CloudData.zero, []) ∧
      cloudSenderStep (queue_enqueue queue_init CloudData.zero).1 false
        = ((queue_enqueue
            (queue_dequeue (queue_enqueue queue_init CloudData.zero).1).1
            CloudData.zero).1, none, [CloudData.zero]) ∧
      ((queue_dequeue (queue_enqueue queue_init CloudData.zero).1).1.count
          = QUEUE_SIZE →
        (cloudSenderStep (queue_enqueue queue_init CloudData.zero).1 false).1
          = (queue_dequeue (queue_enqueue queue_init CloudData.zero).1).1)) ∧
    (cloudSenderStep (queue_enqueue queue_init CloudData.zero).1 false).2.2
      = [CloudData.zero] :=
  ⟨sender_retry_semantics.1 (queue_enqueue queue_init CloudData.zero).1
      (queue_dequeue (queue_enqueue queue_init CloudData.zero).1).1
      CloudData.zero rfl,
   (sender_retry_semantics.2 CloudData.zero).1⟩

/-! ## Snapshot consistency under the `state_mutex` discipline

A fine-grained interleaving model of the updater (`fast_loop_thread`,
src/main.c lines 137-151) and the evaluator's snapshot read
(`slow_loop_thread`, lines 166-201), both of which hold `state_mutex`
around their whole critical section.  Each shared field of `vehicle_state`
is a cell carrying, besides its value, a ghost version number: the index of
the update operation its value logically belongs to (a conditionally
skipped store such as the `top_speed` assignment still stamps the new
version, since the unchanged value is the value as of that update).  The
updater's four field accesses and the evaluator's four field reads are
separate atomic micro-steps, so torn interleavings are expressible; only
the mutex discipline rules them out. -/

/-- A shared field plus the ghost index of the update that produced its
current value. -/
structure Cell (α : Type) where
  val : α
  ver : ℕ

/-- Which thread holds `state_mutex`. -/
inductive Owner where
  | updater
  | evaluator

/-- Fine-grained system state: the four shared fields of `vehicle_state`
relevant to a snapshot, the mutex, the updater's position inside its
critical section (`upc`, 0 = outside, 1 = locked, 2-5 = after each store),
the number of completed updates (`uver`), the reader's position (`rpc`,
0 = outside, 1 = locked, 2-5 = after each load) and the ghost list of
versions the reader observed in its current snapshot (`robs`). -/
structure Sys where
  curr : Cell SensorData
  dist : Cell ℚ
  top : Cell ℚ
  moving : Cell Bool
  mutex : Option Owner
  upc : ℕ
  uver : ℕ
  rpc : ℕ
  robs : List ℕ

/-- The zero-initialised shared state before either thread runs. -/
def sysInit : Sys :=
  { curr := ⟨SensorData.zero, 0⟩, dist := ⟨0, 0⟩, top := ⟨0, 0⟩,
    moving := ⟨false, 0⟩, mutex := none, upc := 0, uver := 0,
    rpc := 0, robs := [] }

/-- One atomic micro-step of either thread.  `stream k` is the sensor
reading consumed by update number `k` (`read_sensor_data` happens outside
the lock).  The updater's store order and the reader's load order follow
src/main.c lines 139-149 and 168-176. -/
inductive Step (stream : ℕ → SensorData) : Sys → Sys → Prop where
  | ulock (s : Sys) : s.mutex = none → s.upc = 0 →
      Step stream s { s with mutex := some Owner.updater, upc := 1 }
  | uwrite_curr (s : Sys) : s.upc = 1 →
      Step stream s { s with curr := ⟨stream s.uver, s.uver + 1⟩, upc := 2 }
  | uwrite_dist (s : Sys) : s.upc = 2 →
      Step stream s
        { s with
          dist := ⟨s.dist.val + (stream s.uver).speed * time_hours, s.uver + 1⟩,
          upc := 3 }
  | uwrite_top (s : Sys) : s.upc = 3 →
      Step stream s
        { s with
          top := ⟨if (stream s.uver).speed > s.top.val then (stream s.uver).speed
                  else s.top.val, s.uver + 1⟩,
          upc := 4 }
  | uwrite_moving (s : Sys) : s.upc = 4 →
      Step stream s
        { s with
          moving := ⟨decide ((stream s.uver).speed > 0.5), s.uver + 1⟩,
          upc := 5 }
  | uunlock (s : Sys) : s.upc = 5 →
      Step stream s { s with mutex := none, upc := 0, uver := s.uver + 1 }
  | rlock (s : Sys) : s.mutex = none → s.rpc = 0 →
      Step stream s { s with mutex := some Owner.evaluator, rpc := 1, robs := [] }
  | rread_curr (s : Sys) : s.rpc = 1 →
      Step stream s { s with robs := s.robs ++ [s.curr.ver], rpc := 2 }
  | rread_moving (s : Sys) : s.rpc = 2 →
      Step stream s { s with robs := s.robs ++ [s.moving.ver], rpc := 3 }
  | rread_dist (s : Sys) : s.rpc = 3 →
      Step stream s { s with robs := s.robs ++ [s.dist.ver], rpc := 4 }
  | rread_top (s : Sys) : s.rpc = 4 →
      Step stream s { s with robs := s.robs ++ [s.top.ver], rpc := 5 }
  | runlock (s : Sys) : s.rpc = 5 →
      Step stream s { s with mutex := none, rpc := 0 }

/-- States reachable from the zero-initialised shared state. -/
inductive Reaches (stream : ℕ → SensorData) : Sys → Prop where
  | init : Reaches stream sysInit
  | step {s t : Sys} : Reaches stream s → Step stream s t → Reaches stream t

/-- The inductive invariant: program counters are bounded, a thread inside
its critical section holds the mutex, each cell's version records how far
the current update has progressed, and the versions observed so far by a
reader inside its critical section all equal the current update count. -/
def SysInv (s : Sys) : Prop :=
  s.upc ≤ 5 ∧ s.rpc ≤ 5 ∧
  (1 ≤ s.upc → s.mutex = some Owner.updater) ∧
  (1 ≤ s.rpc → s.mutex = some Owner.evaluator) ∧
  ((2 ≤ s.upc → s.curr.ver = s.uver + 1) ∧ (s.upc < 2 → s.curr.ver = s.uver)) ∧
  ((3 ≤ s.upc → s.dist.ver = s.uver + 1) ∧ (s.upc < 3 → s.dist.ver = s.uver)) ∧
  ((4 ≤ s.upc → s.top.ver = s.uver + 1) ∧ (s.upc < 4 → s.top.ver = s.uver)) ∧
  ((5 ≤ s.upc → s.moving.ver = s.uver + 1) ∧ (s.upc < 5 → s.moving.ver = s.uver)) ∧
  (1 ≤ s.rpc → s.robs = List.replicate (s.rpc - 1) s.uver)

theorem sysInv_step {stream : ℕ → SensorData} {s t : Sys}
    (h : SysInv s) (hs : Step stream s t) : SysInv t := by
  obtain ⟨h1, h2, h3, h4, ⟨h5a, h5b⟩, ⟨h6a, h6b⟩, ⟨h7a, h7b⟩, ⟨h8a, h8b⟩, h9⟩ := h
  cases hs with
  | ulock hmu hpc =>
    have hrz : s.rpc = 0 := by
      by_contra hne
      have := h4 (by omega)
      rw [hmu] at this
      exact Option.noConfusion this
    simp only [SysInv]
    exact ⟨by omega, by omega, fun _ => trivial,
      fun hr => absurd hr (by omega),
      ⟨fun hu => absurd hu (by omega), fun _ => h5b (by omega)⟩,
      ⟨fun hu => absurd hu (by omega), fun _ => h6b (by omega)⟩,
      ⟨fun hu => absurd hu (by omega), fun _ => h7b (by omega)⟩,
      ⟨fun hu => absurd hu (by omega), fun _ => h8b (by omega)⟩,
      fun hr => absurd hr (by omega)⟩
  | uwrite_curr hpc =>
    have hrz : s.rpc = 0 := by
      by_contra hne
      have hev := h4 (by omega)
      have hup := h3 (by omega)
      rw [hup] at hev
      exact Owner.noConfusion (Option.some.inj hev)
    simp only [SysInv]
    exact ⟨by omega, by omega, fun _ => h3 (by omega),
      fun hr => absurd hr (by omega),
      ⟨fun _ => trivial, fun hlt => absurd hlt (by omega)⟩,
      ⟨fun hu => absurd hu (by omega), fun _ => h6b (by omega)⟩,
      ⟨fun hu => absurd hu (by omega), fun _ => h7b (by omega)⟩,
      ⟨fun hu => absurd hu (by omega), fun _ => h8b (by omega)⟩,
      fun hr => absurd hr (by omega)⟩
  | uwrite_dist hpc =>
    have hrz : s.rpc = 0 := by
      by_contra hne
      have hev := h4 (by omega)
      have hup := h3 (by omega)
      rw [hup] at hev
      exact Owner.noConfusion (Option.some.inj hev)
    simp only [SysInv]
    exact ⟨by omega, by omega, fun _ => h3 (by omega),
      fun hr => absurd hr (by omega),
      ⟨fun _ => h5a (by omega), fun hlt => absurd hlt (by omega)⟩,
      ⟨fun _ => trivial, fun hlt => absurd hlt (by omega)⟩,
      ⟨fun hu => absurd hu (by omega), fun _ => h7b (by omega)⟩,
      ⟨fun hu => absurd hu (by omega), fun _ => h8b (by omega)⟩,
      fun hr => absurd hr (by omega)⟩
  | uwrite_top hpc =>
    have hrz : s.rpc = 0 := by
      by_contra hne
      have hev := h4 (by omega)
      have hup := h3 (by omega)
      rw [hup] at hev
      exact Owner.noConfusion (Option.some.inj hev)
    simp only [SysInv]
    exact ⟨by omega, by omega, fun _ => h3 (by omega),
      fun hr => absurd hr (by omega),
      ⟨fun _ => h5a (by omega), fun hlt => absurd hlt (by omega)⟩,
      ⟨fun _ => h6a (by omega), fun hlt => absurd hlt (by omega)⟩,
      ⟨fun _ => trivial, fun hlt => absurd hlt (by omega)⟩,
      ⟨fun hu => absurd hu (by omega), fun _ => h8b (by omega)⟩,
      fun hr => absurd hr (by omega)⟩
  | uwrite_moving hpc =>
    have hrz : s.rpc = 0 := by
      by_contra hne
      have hev := h4 (by omega)
      have hup := h3 (by omega)
      rw [hup] at hev
      exact Owner.noConfusion (Option.some.inj hev)
    simp only [SysInv]
    exact ⟨by omega, by omega, fun _ => h3 (by omega),
      fun hr => absurd hr (by omega),
      ⟨fun _ => h5a (by omega), fun hlt => absurd hlt (by omega)⟩,
      ⟨fun _ => h6a (by omega), fun hlt => absurd hlt (by omega)⟩,
      ⟨fun _ => h7a (by omega), fun hlt => absurd hlt (by omega)⟩,
      ⟨fun _ => trivial, fun hlt => absurd hlt (by omega)⟩,
      fun hr => absurd hr (by omega)⟩
  | uunlock hpc =>
    have hrz : s.rpc = 0 := by
      by_contra hne
      have hev := h4 (by omega)
      have hup := h3 (by omega)
      rw [hup] at hev
      exact Owner.noConfusion (Option.some.inj hev)
    simp only [SysInv]
    exact ⟨by omega, by omega, fun hu => absurd hu (by omega),
      fun hr => absurd hr (by omega),
      ⟨fun hu => absurd hu (by omega), fun _ => h5a (by omega)⟩,
      ⟨fun hu => absurd hu (by omega), fun _ => h6a (by omega)⟩,
      ⟨fun hu => absurd hu (by omega), fun _ => h7a (by omega)⟩,
      ⟨fun hu => absurd hu (by omega), fun _ => h8a (by omega)⟩,
      fun hr => absurd hr (by omega)⟩
  | rlock hmu hpc =>
    have huz : s.upc = 0 := by
      by_contra hne
      have := h3 (by omega)
      rw [hmu] at this
      exact Option.noConfusion this
    simp only [SysInv]
    exact ⟨by omega, by omega, fun hu => absurd hu (by omega), fun _ => trivial,
      ⟨fun hu => absurd hu (by omega), fun _ => h5b (by omega)⟩,
      ⟨fun hu => absurd hu (by omega), fun _ => h6b (by omega)⟩,
      ⟨fun hu => absurd hu (by omega), fun _ => h7b (by omega)⟩,
      ⟨fun hu => absurd hu (by omega), fun _ => h8b (by omega)⟩,
      fun _ => rfl⟩
  | rread_curr hpc =>
    have hmu : s.mutex = some Owner.evaluator := h4 (by omega)
    have huz : s.upc = 0 := by
      by_contra hne
      have := h3 (by omega)
      rw [hmu] at this
      exact Owner.noConfusion (Option.some.inj this)
    have hver : s.curr.ver = s.uver := h5b (by omega)
    have hro : s.robs = List.replicate 0 s.uver := by
      simpa [hpc] using h9 (by omega)
    simp only [SysInv]
    refine ⟨by omega, by omega, fun hu => absurd hu (by omega), fun _ => hmu,
      ⟨fun hu => absurd hu (by omega), fun _ => hver⟩,
      ⟨fun hu => absurd hu (by omega), fun _ => h6b (by omega)⟩,
      ⟨fun hu => absurd hu (by omega), fun _ => h7b (by omega)⟩,
      ⟨fun hu => absurd hu (by omega), fun _ => h8b (by omega)⟩, fun _ => ?_⟩
    show s.robs ++ [s.curr.ver] = List.replicate (2 - 1) s.uver
    rw [hro, hver]
    simp
  | rread_moving hpc =>
    have hmu : s.mutex = some Owner.evaluator := h4 (by omega)
    have huz : s.upc = 0 := by
      by_contra hne
      have := h3 (by omega)
      rw [hmu] at this
      exact Owner.noConfusion (Option.some.inj this)
    have hver : s.moving.ver = s.uver := h8b (by omega)
    have hro : s.robs = List.replicate 1 s.uver := by
      simpa [hpc] using h9 (by omega)
    simp only [SysInv]
    refine ⟨by omega, by omega, fun hu => absurd hu (by omega), fun _ => hmu,
      ⟨fun hu => absurd hu (by omega), fun _ => h5b (by omega)⟩,
      ⟨fun hu => absurd hu (by omega), fun _ => h6b (by omega)⟩,
      ⟨fun hu => absurd hu (by omega), fun _ => h7b (by omega)⟩,
      ⟨fun hu => absurd hu (by omega), fun _ => hver⟩, fun _ => ?_⟩
    show s.robs ++ [s.moving.ver] = List.replicate (3 - 1) s.uver
    rw [hro, hver]
    simp [List.replicate_succ]
  | rread_dist hpc =>
    have hmu : s.mutex = some Owner.evaluator := h4 (by omega)
    have huz : s.upc = 0 := by
      by_contra hne
      have := h3 (by omega)
      rw [hmu] at this
      exact Owner.noConfusion (Option.some.inj this)
    have hver : s.dist.ver = s.uver := h6b (by omega)
    have hro : s.robs = List.replicate 2 s.uver := by
      simpa [hpc] using h9 (by omega)
    simp only [SysInv]
    refine ⟨by omega, by omega, fun hu => absurd hu (by omega), fun _ => hmu,
      ⟨fun hu => absurd hu (by omega), fun _ => h5b (by omega)⟩,
      ⟨fun hu => absurd hu (by omega), fun _ => hver⟩,
      ⟨fun hu => absurd hu (by omega), fun _ => h7b (by omega)⟩,
      ⟨fun hu => absurd hu (by omega), fun _ => h8b (by omega)⟩, fun _ => ?_⟩
    show s.robs ++ [s.dist.ver] = List.replicate (4 - 1) s.uver
    rw [hro, hver]
    simp [List.replicate_succ]
  | rread_top hpc =>
    have hmu : s.mutex = some Owner.evaluator := h4 (by omega)
    have huz : s.upc = 0 := by
      by_contra hne
      have := h3 (by omega)
      rw [hmu] at this
      exact Owner.noConfusion (Option.some.inj this)
    have hver : s.top.ver = s.uver := h7b (by omega)
    have hro : s.robs = List.replicate 3 s.uver := by
      simpa [hpc] using h9 (by omega)
    simp only [SysInv]
    refine ⟨by omega, by omega, fun hu => absurd hu (by omega), fun _ => hmu,
      ⟨fun hu => absurd hu (by omega), fun _ => h5b (by omega)⟩,
      ⟨fun hu => absurd hu (by omega), fun _ => h6b (by omega)⟩,
      ⟨fun hu => absurd hu (by omega), fun _ => hver⟩,
      ⟨fun hu => absurd hu (by omega), fun _ => h8b (by omega)⟩, fun _ => ?_⟩
    show s.robs ++ [s.top.ver] = List.replicate (5 - 1) s.uver
    rw [hro, hver]
    simp [List.replicate_succ]
  | runlock hpc =>
    have huz : s.upc = 0 := by
      by_contra hne
      have hup := h3 (by omega)
      have hev := h4 (by omega)
      rw [hev] at hup
      exact Owner.noConfusion (Option.some.inj hup)
    simp only [SysInv]
    exact ⟨by omega, by omega, fun hu => absurd hu (by omega),
      fun hr => absurd hr (by omega),
      ⟨fun hu => absurd hu (by omega), fun _ => h5b (by omega)⟩,
      ⟨fun hu => absurd hu (by omega), fun _ => h6b (by omega)⟩,
      ⟨fun hu => absurd hu (by omega), fun _ => h7b (by omega)⟩,
      ⟨fun hu => absurd hu (by omega), fun _ => h8b (by omega)⟩,
      fun hr => absurd hr (by omega)⟩

theorem reaches_inv {stream : ℕ → SensorData} {s : Sys}
    (h : Reaches stream s) : SysInv s := by
  induction h with
  | init =>
    refine ⟨by norm_num [sysInit], by norm_num [sysInit], ?_, ?_, ?_, ?_, ?_, ?_, ?_⟩ <;>
      simp [sysInit]
  | step _ hs ih => exact sysInv_step ih hs

/-- C9: snapshot consistency.  In every reachable interleaving of the
updater's micro-steps and the evaluator's snapshot reads, when the
evaluator has completed its four reads under the mutex, the four observed
values carry one and the same update version — never a torn view mixing
fields from two different updates. -/
theorem snapshot_consistency (stream : ℕ → SensorData) (s : Sys)
    (h : Reaches stream s) (hr : s.rpc = 5) :
    ∃ v : ℕ, s.robs = [v, v, v, v] := by
  obtain ⟨-, -, -, -, -, -, -, -, h9⟩ := reaches_inv h
  refine ⟨s.uver, ?_⟩
  have hro := h9 (by omega)
  rw [hr] at hro
  simpa [List.replicate_succ] using hro

/-- A demonstration trace: the evaluator locks the fresh state and performs
its four reads. -/
def demo1 : Sys := { sysInit with mutex := some Owner.evaluator, rpc := 1, robs := [] }

def demo2 : Sys := { demo1 with robs := [0], rpc := 2 }

def demo3 : Sys := { demo2 with robs := [0, 0], rpc := 3 }

def demo4 : Sys := { demo3 with robs := [0, 0, 0], rpc := 4 }

def readerDemo : Sys := { demo4 with robs := [0, 0, 0, 0], rpc := 5 }

/-- The constant sensor stream used by the demonstration trace. -/
def streamZero : ℕ → SensorData := fun _ => SensorData.zero

theorem snapshot_consistency_witness :
    ∃ v : ℕ, readerDemo.robs = [v, v, v, v] :=
  snapshot_consistency streamZero readerDemo
    (Reaches.step (Reaches.step (Reaches.step (Reaches.step (Reaches.step
        Reaches.init
        (Step.rlock sysInit rfl rfl))
        (Step.rread_curr demo1 rfl))
        (Step.rread_moving demo2 rfl))
        (Step.rread_dist demo3 rfl))
        (Step.rread_top demo4 rfl))
    rfl

/-! ## The unused `last_battery` field -/

/-- C10: frame property.  The `last_battery` field of `VehicleState` is
dead state: the updater step always leaves it unchanged, it stays at its
zero initialisation across every update sequence, and the evaluator tick
is entirely insensitive to it — its battery bookkeeping lives in the
thread-local `last_battery_sent`, passed and returned explicitly. -/
theorem last_battery_unused :
    (∀ (s : VehicleState) (r : SensorData),
      (updateState s r).last_battery = s.last_battery) ∧
    (∀ rs : List SensorData, (runUpdates vehicle_init rs).last_battery = 0) ∧
    (∀ (vs : VehicleState) (b : ℚ) (now lst : ℤ) (lbs : ℚ) (q : CloudQueue),
      slowTick { vs with last_battery := b } now lst lbs q
        = slowTick vs now lst lbs q) := by
  have hpres : ∀ (rs : List SensorData) (s : VehicleState),
      (runUpdates s rs).last_battery = s.last_battery := by
    intro rs
    induction rs with
    | nil => intro s; rfl
    | cons r rs ih =>
      intro s
      show (runUpdates (updateState s r) rs).last_battery = s.last_battery
      rw [ih (updateState s r)]
      rfl
  exact ⟨fun s r => rfl, fun rs => hpres rs vehicle_init,
    fun vs b now lst lbs q => rfl⟩

end VehicleMonitor
